import Mathlib

/-!
Verification of the reminder backend (`src/reminder.py`, `src/main.py`).

The embedding below translates the Python source into Lean:

* Python strings are Lean `String`s; `str.split(':')` is `splitOnColon` on the
  character list, `int(...)` on a time component is `pyInt?` (the digit-string
  case, the only one occurring for time components), and lexicographic string
  comparison (used by the store for the `reminder_time` range filters, and
  noted as such in the design notes) is `charListLe` on code points.
* Wall-clock times of day are seconds since midnight (`Nat`); `strftime
  "%H:%M:%S"` is `fmtTime`.  Calendar dates are `Int` day ordinals: comparing
  ISO `YYYY-MM-DD` strings coincides with comparing the dates themselves, so
  the store's date filters are modelled with `<` on `Int`.
* A row of the `reminder` table is `Row`; columns that the code reads with
  `dict.get` or that may be NULL are `Option`s.  `id` is store-assigned and
  always present.
* Python exceptions are `Except Unit`: a function that can raise returns
  `Except Unit α`, and a `try/except` that swallows the error is a `match` on
  that result.
* The store connection is `Option (List Row)`: `none` models the client being
  unavailable or the query raising (both print and yield `[]` in the source);
  `some db` is a working store with contents `db`.
* The push gateway (`messaging.send` wrapped in `send_fcm_notification`) is a
  function `g : String → Bool` giving the success of sending to a token; the
  tick records each gateway invocation as `(row id, token)` in a call log (the
  constant title and the body derived from the time string carry no further
  information).  `get_current_nigeria_time()` is modelled by passing the
  tick's date `today` and time of day `nowTod` explicitly.
-/

set_option maxRecDepth 8000

/-- Lexicographic comparison of character lists by code point, the order used
    by Python `<=` on strings and by the store's text range filters. -/
def charListLe : List Char → List Char → Bool
  | [], _ => true
  | _ :: _, [] => false
  | a :: as, b :: bs => a.toNat < b.toNat || (a = b && charListLe as bs)

/-- Python `s.split(':')` on the character list of `s`. -/
def splitOnColon : List Char → List (List Char)
  | [] => [[]]
  | c :: cs =>
    let rest := splitOnColon cs
    if c = ':' then [] :: rest
    else
      match rest with
      | [] => [[c]]
      | p :: ps => (c :: p) :: ps

/-- Python `int(...)` on a time component: succeeds on a nonempty all-digit
    string (sign/whitespace forms never occur in `HH:MM:SS` components),
    raises `ValueError` (`none`) otherwise. -/
def pyInt? (s : List Char) : Option Nat :=
  if s ≠ [] ∧ s.all Char.isDigit then
    some (s.foldl (fun a c => 10 * a + (c.toNat - 48)) 0)
  else none

/-- Two-digit zero-padded decimal rendering, as produced for each component by
    `strftime "%H:%M:%S"`. -/
def pad2 (n : Nat) : List Char := [Char.ofNat (48 + n / 10), Char.ofNat (48 + n % 10)]

/-- Rendering of a time of day (seconds since midnight) as an `HH:MM:SS`
    string: `strftime "%H:%M:%S"` / `time_to_string` in the source. -/
def fmtTime (t : Nat) : String :=
  ⟨pad2 (t / 3600) ++ ':' :: (pad2 (t % 3600 / 60) ++ ':' :: pad2 (t % 60))⟩

/-- The parse performed by `is_within_window`:
    `reminder_hour, reminder_minute = map(int, reminder_time_str.split(':')[:2])`
    followed by `time(reminder_hour, reminder_minute)`.  Fails (raises) when the
    split yields fewer than two components, a component is not a number, or the
    values are out of range for `datetime.time`.  The seconds component, when
    present, is discarded by the `[:2]` slice. -/
def parseHM (s : String) : Option (Nat × Nat) :=
  match (splitOnColon s.data).take 2 with
  | [a, b] =>
    match pyInt? a, pyInt? b with
    | some h, some m => if h < 24 ∧ m < 60 then some (h, m) else none
    | _, _ => none
  | _ => none

/-- Model of `is_within_window(reminder_time_str, current_time, window_minutes)`.
    `currentTod` is `current_time.time()` in seconds since midnight.  The window
    start is the parsed reminder time on the current date; the window end is
    that time plus `window_minutes` minutes, taken back to a time of day
    (`.time()` — hence the `% 86400`, which wraps past midnight).  Raises
    (`Except.error`) exactly when the parse raises. -/
def is_within_window (reminder_time_str : String) (currentTod : Nat)
    (window_minutes : Nat) : Except Unit Bool :=
  match parseHM reminder_time_str with
  | none => .error ()
  | some (h, m) =>
    let window_start := (h * 60 + m) * 60
    let window_end := (window_start + window_minutes * 60) % 86400
    .ok (decide (window_start ≤ currentTod ∧ currentTod ≤ window_end))

/-- A row of the `reminder` table.  `id` is assigned by the store and always
    present; the other columns may be NULL / missing from the returned dict. -/
structure Row where
  id : Nat
  user_id : Option String
  fcm_token : Option String
  reminder_time : Option String
  last_notified_date : Option Int
  expires_on : Option Int
deriving DecidableEq

/-- The row predicate of the selector's store query
    (`get_reminders_to_send`): the two `or_` filters and the two
    `reminder_time` range filters are conjoined by the store.  `nowStr` and
    `hourStr` are the rendered bounds; text comparison against a NULL
    `reminder_time` selects nothing. -/
def selectorPred (today : Int) (nowStr hourStr : String) (r : Row) : Bool :=
  (match r.last_notified_date with
   | none => true
   | some d => decide (d < today)) &&
  (match r.expires_on with
   | none => true
   | some d => decide (today < d)) &&
  (match r.reminder_time with
   | none => false
   | some s => charListLe nowStr.data s.data && charListLe s.data hourStr.data)

/-- The store-side evaluation of the selector's single query over the table
    contents. -/
def storeQuery (db : List Row) (today : Int) (nowTod : Nat) : List Row :=
  db.filter (selectorPred today (fmtTime nowTod) (fmtTime ((nowTod + 3600) % 86400)))

/-- Model of `get_reminders_to_send()`: with no working store (client missing,
    or the query raising inside the `try`) it prints and returns `[]`;
    otherwise it returns the data of the query whose bounds are the current
    time of day and one hour later (both via `strftime "%H:%M:%S"`, the one
    hour later wrapping past midnight). -/
def get_reminders_to_send : Option (List Row) → Int → Nat → List Row
  | none, _, _ => []
  | some db, today, nowTod => storeQuery db today nowTod

/-- Model of `update_reminder(reminder_id)` against a working store: the
    update sets `last_notified_date` to today's date on every row whose `id`
    matches, leaving everything else as it was. -/
def update_reminder (db : List Row) (reminder_id : Nat) (today : Int) : List Row :=
  db.map fun r =>
    if r.id = reminder_id then { r with last_notified_date := some today } else r

/-- State threaded through the candidate loop of `main()`: the store contents
    (mutated by write-backs), the two counters, and the log of gateway
    invocations `(row id, token)`. -/
structure TickState where
  db : List Row
  send_count : Nat
  skip_count : Nat
  calls : List (Nat × String)
deriving DecidableEq

/-- One iteration of the candidate loop of `main()`.  Reading
    `reminder['reminder_time']` raises `KeyError` when the field is missing —
    before the token guard.  A missing or empty token skips.  Otherwise
    `is_within_window(reminder_time, current_time)` is evaluated with the
    default 5-minute window and may raise `ValueError`; inside the window the
    gateway is invoked, and only on success is the write-back performed and
    the send counter bumped — a failed dispatch touches neither counter. -/
def processReminder (today : Int) (nowTod : Nat) (g : String → Bool)
    (s : TickState) (r : Row) : Except Unit TickState :=
  match r.reminder_time with
  | none => .error ()
  | some reminder_time =>
    match r.fcm_token with
    | none => .ok { s with skip_count := s.skip_count + 1 }
    | some tok =>
      if tok = "" then .ok { s with skip_count := s.skip_count + 1 }
      else
        match is_within_window reminder_time nowTod 5 with
        | .error e => .error e
        | .ok true =>
          let s' := { s with calls := s.calls ++ [(r.id, tok)] }
          if g tok then
            .ok { s' with
                  db := update_reminder s'.db r.id today,
                  send_count := s'.send_count + 1 }
          else .ok s'
        | .ok false => .ok { s with skip_count := s.skip_count + 1 }

/-- The candidate loop of `main()`: left-to-right over the selected list, an
    uncaught exception aborting the remainder. -/
def runList (today : Int) (nowTod : Nat) (g : String → Bool) :
    TickState → List Row → Except Unit TickState
  | s, [] => .ok s
  | s, r :: rs =>
    match processReminder today nowTod g s r with
    | .error e => .error e
    | .ok s' => runList today nowTod g s' rs

/-- The observable outcome of one tick: store contents after the write-backs,
    the summary counters (`Total checked` is the length of the selected list),
    and the gateway call log. -/
structure TickReport where
  db : List Row
  checked : Nat
  sent : Nat
  skipped : Nat
  calls : List (Nat × String)
deriving DecidableEq

deriving instance DecidableEq for Except

/-- Model of `main()` (the spec's `run_tick`) over a working store and
    gateway: select the candidates, return at once when there are none,
    otherwise run the loop from zeroed counters and report the summary.  An
    exception escaping the loop escapes `main` — nothing in the source catches
    it.  (Named `run_tick` here because `main` is reserved in Lean.) -/
def run_tick (db : List Row) (today : Int) (nowTod : Nat) (g : String → Bool) :
    Except Unit TickReport :=
  let reminders := get_reminders_to_send (some db) today nowTod
  if reminders = [] then .ok ⟨db, 0, 0, 0, []⟩
  else
    match runList today nowTod g ⟨db, 0, 0, []⟩ reminders with
    | .error e => .error e
    | .ok s => .ok ⟨s.db, reminders.length, s.send_count, s.skip_count, s.calls⟩

/-- Modelled from the spec's words, for comparison with the code's query: a
    reminder has not yet been notified today iff `last_notified_date` is
    absent or earlier than today. -/
def spec_not_notified (r : Row) (today : Int) : Bool :=
  match r.last_notified_date with
  | none => true
  | some d => decide (d < today)

/-- Modelled from the spec's words, for comparison with the code's query:
    eligibility — not yet notified today, and `expires_on` absent or strictly
    after today. -/
def spec_eligible (r : Row) (today : Int) : Bool :=
  spec_not_notified r today &&
  (match r.expires_on with
   | none => true
   | some d => decide (today < d))

/-- Rows that cannot make the candidate loop raise once selected: either the
    token guard skips them before the time is parsed, or the time string
    parses.  (A row with no `reminder_time` at all is never selected, the
    query's range filter rejecting NULL.) -/
def safeRow (r : Row) : Bool :=
  (match r.fcm_token with
   | none => true
   | some tok => decide (tok = "")) ||
  (match r.reminder_time with
   | none => true
   | some s => (parseHM s).isSome)

/-- The gateway invocations one candidate produces (empty unless the token is
    present and nonempty and the 5-minute window check returns true). -/
def callOf (nowTod : Nat) (r : Row) : List (Nat × String) :=
  match r.reminder_time, r.fcm_token with
  | some ts, some tok =>
    if tok = "" then []
    else
      match is_within_window ts nowTod 5 with
      | .ok true => [(r.id, tok)]
      | _ => []
  | _, _ => []

/-- The gateway invocations a candidate list produces, in order. -/
def callsOfList (nowTod : Nat) : List Row → List (Nat × String)
  | [] => []
  | r :: rs => callOf nowTod r ++ callsOfList nowTod rs

/-- The number of logged gateway calls attributed to a given row id. -/
def countCalls (rid : Nat) (cs : List (Nat × String)) : Nat :=
  (cs.filter fun c => decide (c.1 = rid)).length

/-- The number of logged gateway calls whose dispatch failed. -/
def failCalls (g : String → Bool) (cs : List (Nat × String)) : Nat :=
  (cs.filter fun c => !(g c.2)).length

/-- Every row carrying the given id has been marked notified today. -/
def notifiedAll (rid : Nat) (today : Int) (db : List Row) : Prop :=
  ∀ x ∈ db, x.id = rid → x.last_notified_date = some today

/-- How one row may change over a tick on date `today`: every field except
    `last_notified_date` is unchanged, and `last_notified_date` is either
    unchanged or set to today. -/
def rowEvolves (today : Int) (a b : Row) : Prop :=
  b.id = a.id ∧ b.user_id = a.user_id ∧ b.fcm_token = a.fcm_token ∧
  b.reminder_time = a.reminder_time ∧ b.expires_on = a.expires_on ∧
  (b.last_notified_date = a.last_notified_date ∨ b.last_notified_date = some today)

/-- Relation between store contents before and after a tick on date `today`:
    rows correspond pointwise, each evolving by `rowEvolves`. -/
def framePreserved (today : Int) (db db' : List Row) : Prop :=
  List.Forall₂ (rowEvolves today) db db'

/-- A successful parse yields a valid wall-clock hour and minute (the
    `datetime.time` constructor validates its arguments). -/
theorem parseHM_bounds {s : String} {h m : Nat} (hp : parseHM s = some (h, m)) :
    h < 24 ∧ m < 60 := by
  unfold parseHM at hp
  repeat split at hp
  all_goals simp_all

/-- Lexicographic comparison of two-digit renderings agrees with the numeric
    order of the rendered values. -/
theorem pad2_le_iff : ∀ x, x < 100 → ∀ y, y < 100 →
    (charListLe (pad2 x) (pad2 y) = true ↔ x ≤ y) := by decide

/-- Two-digit renderings of values below 100 are injective. -/
theorem pad2_inj : ∀ x, x < 100 → ∀ y, y < 100 → (pad2 x = pad2 y ↔ x = y) := by decide

/-- Lexicographic comparison steps through blocks of equal length. -/
theorem charListLe_append (a b x y : List Char) (hlen : a.length = b.length) :
    charListLe (a ++ x) (b ++ y) = if a = b then charListLe x y else charListLe a b := by
  induction a generalizing b with
  | nil =>
    cases b with
    | nil => simp [charListLe]
    | cons d ds => simp at hlen
  | cons c cs ih =>
    cases b with
    | nil => simp at hlen
    | cons d ds =>
      simp only [List.length_cons, Nat.add_right_cancel_iff] at hlen
      by_cases hcd : c = d
      · subst hcd
        by_cases hcs : cs = ds
        · subst hcs
          simp [charListLe, List.cons_append, ih cs hlen]
        · have hne : (c :: cs : List Char) ≠ c :: ds := by simp [hcs]
          simp [charListLe, List.cons_append, ih ds hlen, hcs, hne]
      · have hne : (c :: cs : List Char) ≠ d :: ds := by simp [hcd]
        by_cases hlt : c.toNat < d.toNat
        · simp [charListLe, List.cons_append, hlt, hne]
        · simp [charListLe, List.cons_append, hlt, hcd, hne]

/-- Lexicographic comparison of equal heads reduces to the tails. -/
theorem charListLe_cons_same (c : Char) (x y : List Char) :
    charListLe (c :: x) (c :: y) = charListLe x y := by
  simp [charListLe]

/-- Lexicographic comparison of `HH:MM:SS` shaped blocks is the lexicographic
    order on the numeric components. -/
theorem charListLe_blocks (h1 m1 s1 h2 m2 s2 : Nat)
    (hh1 : h1 < 100) (hm1 : m1 < 100) (hs1 : s1 < 100)
    (hh2 : h2 < 100) (hm2 : m2 < 100) (hs2 : s2 < 100) :
    (charListLe (pad2 h1 ++ ':' :: (pad2 m1 ++ ':' :: pad2 s1))
                (pad2 h2 ++ ':' :: (pad2 m2 ++ ':' :: pad2 s2)) = true ↔
     (h1 < h2 ∨ (h1 = h2 ∧ (m1 < m2 ∨ (m1 = m2 ∧ s1 ≤ s2))))) := by
  rw [charListLe_append _ _ _ _ (by simp [pad2])]
  by_cases hh : h1 = h2
  · subst hh
    rw [if_pos rfl, charListLe_cons_same,
      charListLe_append _ _ _ _ (by simp [pad2])]
    by_cases hm : m1 = m2
    · subst hm
      rw [if_pos rfl, charListLe_cons_same, pad2_le_iff s1 hs1 s2 hs2]
      omega
    · rw [if_neg (fun hpm => hm ((pad2_inj m1 hm1 m2 hm2).mp hpm)),
        pad2_le_iff m1 hm1 m2 hm2]
      omega
  · rw [if_neg (fun hph => hh ((pad2_inj h1 hh1 h2 hh2).mp hph)),
      pad2_le_iff h1 hh1 h2 hh2]
    omega

/-- Lexicographic comparison of rendered times of day agrees with the numeric
    order, for times within one day. -/
theorem fmtTime_le_iff (a b : Nat) (ha : a < 86400) (hb : b < 86400) :
    (charListLe (fmtTime a).data (fmtTime b).data = true ↔ a ≤ b) := by
  have e1 : a % 3600 % 60 = a % 60 := Nat.mod_mod_of_dvd a (by norm_num)
  have e2 : b % 3600 % 60 = b % 60 := Nat.mod_mod_of_dvd b (by norm_num)
  have hdm1 : 3600 * (a / 3600) + a % 3600 = a := Nat.div_add_mod a 3600
  have hdm2 : 60 * (a % 3600 / 60) + a % 3600 % 60 = a % 3600 := Nat.div_add_mod (a % 3600) 60
  have hdm3 : 3600 * (b / 3600) + b % 3600 = b := Nat.div_add_mod b 3600
  have hdm4 : 60 * (b % 3600 / 60) + b % 3600 % 60 = b % 3600 := Nat.div_add_mod (b % 3600) 60
  have hmod1 : a % 3600 < 3600 := Nat.mod_lt _ (by norm_num)
  have hmod2 : b % 3600 < 3600 := Nat.mod_lt _ (by norm_num)
  have hmod3 : a % 3600 % 60 < 60 := Nat.mod_lt _ (by norm_num)
  have hmod4 : b % 3600 % 60 < 60 := Nat.mod_lt _ (by norm_num)
  show (charListLe (pad2 (a / 3600) ++ ':' :: (pad2 (a % 3600 / 60) ++ ':' :: pad2 (a % 60)))
      (pad2 (b / 3600) ++ ':' :: (pad2 (b % 3600 / 60) ++ ':' :: pad2 (b % 60))) = true ↔ a ≤ b)
  rw [charListLe_blocks _ _ _ _ _ _ (by omega) (by omega) (by omega)
    (by omega) (by omega) (by omega)]
  omega

/-- Claim C2 fails as stated: for the reminder time `T = 09:00:30` (non-zero
    seconds) and a 5-minute window, the code returns false at `now = T + W`
    (09:05:30), because the `[:2]` slice in the parser discards the seconds
    component and the window is `[09:00:00, 09:05:00]`. -/
theorem C2_counterexample :
    is_within_window "09:00:30" (9 * 3600 + 30 + 5 * 60) 5 = .ok false := by decide

/-- Claim C2 amended: for reminder times whose seconds component is zero (the
    code keeps only the hour and minute of the parsed time string) and windows
    that stay inside the day, `is_within_window` is true exactly on the closed
    window: true at `now = T` and `now = T + W`, false at `now = T - 1s` and
    `now = T + W + 1s`. -/
theorem C2_window_boundary (s : String) (h m W : Nat)
    (hp : parseHM s = some (h, m))
    (T : Nat) (hT : T = (h * 60 + m) * 60)
    (h1 : 1 ≤ T) (h2 : T + W * 60 + 1 < 86400) :
    is_within_window s T W = .ok true ∧
    is_within_window s (T + W * 60) W = .ok true ∧
    is_within_window s (T - 1) W = .ok false ∧
    is_within_window s (T + W * 60 + 1) W = .ok false := by
  subst hT
  unfold is_within_window
  rw [hp]
  simp only [Nat.mod_eq_of_lt (show (h * 60 + m) * 60 + W * 60 < 86400 by omega),
    Except.ok.injEq, decide_eq_true_eq, decide_eq_false_iff_not]
  refine ⟨by omega, by omega, by omega, by omega⟩

/-- Witness for C2's amended theorem at `T = 09:00`, `W = 5`. -/
theorem C2_window_boundary_witness :
    is_within_window "09:00" 32400 5 = .ok true ∧
    is_within_window "09:00" (32400 + 5 * 60) 5 = .ok true ∧
    is_within_window "09:00" (32400 - 1) 5 = .ok false ∧
    is_within_window "09:00" (32400 + 5 * 60 + 1) 5 = .ok false :=
  C2_window_boundary "09:00" 9 0 5 (by decide) 32400 (by decide) (by decide) (by decide)

/-- Claim C10: when the parsed reminder time plus the window crosses midnight
    (for a window shorter than one day), the wrapped window end is a wall-clock
    time before the window start, the containment test is unsatisfiable, so
    the check is false for every current time — and, with the coordinator's
    5-minute window, such a candidate is always skipped: no gateway call and
    no store write. -/
theorem C10_midnight_wrap (s : String) (h m W : Nat)
    (hp : parseHM s = some (h, m))
    (hW : W * 60 < 86400)
    (hcross : 86400 ≤ (h * 60 + m) * 60 + W * 60) :
    (∀ c : Nat, is_within_window s c W = .ok false) ∧
    (W = 5 → ∀ (today : Int) (c : Nat) (g : String → Bool) (st : TickState) (r : Row),
      r.reminder_time = some s →
      ∃ st', processReminder today c g st r = .ok st' ∧
        st'.calls = st.calls ∧ st'.db = st.db) := by
  have hb := parseHM_bounds hp
  have key : ∀ c : Nat, is_within_window s c W = .ok false := by
    intro c
    unfold is_within_window
    rw [hp]
    simp only [show ((h * 60 + m) * 60 + W * 60) % 86400 =
        (h * 60 + m) * 60 + W * 60 - 86400 from by omega,
      Except.ok.injEq, decide_eq_false_iff_not]
    omega
  refine ⟨key, ?_⟩
  intro hW5 today c g st r hrt
  subst hW5
  cases hft : r.fcm_token with
  | none =>
    exact ⟨{ st with skip_count := st.skip_count + 1 },
      by simp [processReminder, hrt, hft], rfl, rfl⟩
  | some tok =>
    by_cases htok : tok = ""
    · subst htok
      exact ⟨{ st with skip_count := st.skip_count + 1 },
        by simp [processReminder, hrt, hft], rfl, rfl⟩
    · exact ⟨{ st with skip_count := st.skip_count + 1 },
        by simp [processReminder, hrt, hft, htok, key c], rfl, rfl⟩

/-- Witness for C10 at reminder time 23:58 with a 5-minute window, current
    time 23:58:10. -/
theorem C10_midnight_wrap_witness : is_within_window "23:58" 86290 5 = .ok false :=
  (C10_midnight_wrap "23:58" 23 58 5 (by decide) (by decide) (by decide)).1 86290

/-- Claim C6: the selector never raises past its boundary — with no working
    store (missing client, or the query raising inside the `try`) it returns
    the empty list, and with a working store it returns exactly the store's
    query result. -/
theorem C6_selector_never_raises (conn : Option (List Row)) (today : Int) (nowTod : Nat) :
    (conn = none → get_reminders_to_send conn today nowTod = []) ∧
    (∀ db, conn = some db →
      get_reminders_to_send conn today nowTod = storeQuery db today nowTod) :=
  ⟨fun hc => by subst hc; rfl, fun db hc => by subst hc; rfl⟩

/-- Witness for C6: a failing store degrades to the empty candidate list. -/
theorem C6_selector_never_raises_witness : get_reminders_to_send none 0 0 = [] :=
  (C6_selector_never_raises none 0 0).1 rfl

/-- Claim C7: a candidate whose delivery token is absent or empty is counted
    as skipped before any window check, and the gateway is never invoked for
    it: the loop state is unchanged except for the skip counter. -/
theorem C7_missing_token (today : Int) (nowTod : Nat) (g : String → Bool)
    (st : TickState) (r : Row) (ts : String)
    (hrt : r.reminder_time = some ts)
    (htok : r.fcm_token = none ∨ r.fcm_token = some "") :
    processReminder today nowTod g st r =
      .ok { st with skip_count := st.skip_count + 1 } := by
  rcases htok with hft | hft <;> simp [processReminder, hrt, hft]

/-- Witness for C7: a reminder with no token is skipped and produces no call. -/
theorem C7_missing_token_witness :
    processReminder 0 32400 (fun _ => true) ⟨[], 0, 0, []⟩
      ⟨1, some "u", none, some "09:00:00", none, none⟩ =
      .ok ⟨[], 0, 1, []⟩ :=
  C7_missing_token 0 32400 (fun _ => true) ⟨[], 0, 0, []⟩
    ⟨1, some "u", none, some "09:00:00", none, none⟩ "09:00:00" rfl (Or.inl rfl)

/-- Claim C8: on a dispatch failure nothing is written back — the store
    contents are unchanged (every `last_notified_date` untouched), neither
    counter moves, and the candidate set any later selector query on the same
    store returns is unchanged, so the reminder stays eligible for the next
    tick of the day. -/
theorem C8_dispatch_failure_no_writeback (today : Int) (nowTod : Nat)
    (g : String → Bool) (st : TickState) (r : Row) (ts tok : String)
    (hrt : r.reminder_time = some ts)
    (htok : r.fcm_token = some tok) (htokne : tok ≠ "")
    (hwin : is_within_window ts nowTod 5 = .ok true)
    (hg : g tok = false) :
    ∃ st', processReminder today nowTod g st r = .ok st' ∧
      st'.db = st.db ∧
      st'.send_count = st.send_count ∧ st'.skip_count = st.skip_count ∧
      (∀ tod2, get_reminders_to_send (some st'.db) today tod2 =
        get_reminders_to_send (some st.db) today tod2) := by
  refine ⟨{ st with calls := st.calls ++ [(r.id, tok)] }, ?_, rfl, rfl, rfl, fun _ => rfl⟩
  simp [processReminder, hrt, htok, htokne, hwin, hg]

/-- Witness for C8 with a gateway that rejects every token. -/
theorem C8_dispatch_failure_no_writeback_witness :
    ∃ st', processReminder 0 32400 (fun _ => false) ⟨[], 0, 0, []⟩
        ⟨1, some "u", some "t", some "09:00:00", none, none⟩ = .ok st' ∧
      st'.db = (⟨[], 0, 0, []⟩ : TickState).db ∧
      st'.send_count = (⟨[], 0, 0, []⟩ : TickState).send_count ∧
      st'.skip_count = (⟨[], 0, 0, []⟩ : TickState).skip_count ∧
      (∀ tod2, get_reminders_to_send (some st'.db) 0 tod2 =
        get_reminders_to_send (some (⟨[], 0, 0, []⟩ : TickState).db) 0 tod2) :=
  C8_dispatch_failure_no_writeback 0 32400 (fun _ => false) ⟨[], 0, 0, []⟩
    ⟨1, some "u", some "t", some "09:00:00", none, none⟩ "09:00:00" "t"
    rfl rfl (by decide) (by decide) rfl

/-- Claim C9: the write-back frame — `update_reminder` neither creates nor
    deletes rows, and pointwise it sets `last_notified_date` to today's date
    exactly on rows carrying the written id while leaving every other field
    of every row unchanged. -/
theorem C9_writeback_frame (db : List Row) (rid : Nat) (today : Int) :
    (update_reminder db rid today).length = db.length ∧
    (∀ (i : Nat) (r0 : Row), db[i]? = some r0 →
      (update_reminder db rid today)[i]? =
        some ⟨r0.id, r0.user_id, r0.fcm_token, r0.reminder_time,
          (if r0.id = rid then some today else r0.last_notified_date),
          r0.expires_on⟩) := by
  constructor
  · exact List.length_map _ _
  · intro i r0 hi
    have : (update_reminder db rid today)[i]? =
        (db[i]?).map fun r =>
          if r.id = rid then { r with last_notified_date := some today } else r :=
      List.getElem?_map ..
    rw [this, hi]
    by_cases hid : r0.id = rid
    · cases r0
      simp_all
    · cases r0
      simp_all

/-- Witness for C9 at a one-row store whose row carries the written id. -/
theorem C9_writeback_frame_witness :
    (update_reminder [⟨1, some "u", some "t", some "09:00:00", none, some 7⟩] 1 3)[0]? =
      some ⟨1, some "u", some "t", some "09:00:00",
        (if (1 : Nat) = 1 then some 3 else none), some 7⟩ :=
  (C9_writeback_frame [⟨1, some "u", some "t", some "09:00:00", none, some 7⟩] 1 3).2 0
    ⟨1, some "u", some "t", some "09:00:00", none, some 7⟩ rfl

/-- A selected row is a store row and carries a time string (the query's range
    filter rejects a NULL `reminder_time`). -/
theorem storeQuery_mem {db : List Row} {today : Int} {nowTod : Nat} {x : Row}
    (hx : x ∈ storeQuery db today nowTod) : x ∈ db ∧ x.reminder_time ≠ none := by
  rw [storeQuery, List.mem_filter] at hx
  refine ⟨hx.1, fun hrt => ?_⟩
  have hp := hx.2
  simp [selectorPred, hrt] at hp

/-- A candidate with a missing or empty token is skipped. -/
theorem processReminder_token_skip (today : Int) (nowTod : Nat) (g : String → Bool)
    (s : TickState) (r : Row) (ts : String) (hts : r.reminder_time = some ts)
    (hft : r.fcm_token = none ∨ r.fcm_token = some "") :
    processReminder today nowTod g s r = .ok { s with skip_count := s.skip_count + 1 } := by
  rcases hft with hft | hft <;> simp [processReminder, hts, hft]

/-- A candidate outside the 5-minute window is skipped. -/
theorem processReminder_window_false (today : Int) (nowTod : Nat) (g : String → Bool)
    (s : TickState) (r : Row) (ts tok : String) (hts : r.reminder_time = some ts)
    (hft : r.fcm_token = some tok) (htok : tok ≠ "")
    (hwin : is_within_window ts nowTod 5 = .ok false) :
    processReminder today nowTod g s r = .ok { s with skip_count := s.skip_count + 1 } := by
  simp [processReminder, hts, hft, htok, hwin]

/-- A candidate whose window check raises propagates the exception. -/
theorem processReminder_window_error (today : Int) (nowTod : Nat) (g : String → Bool)
    (s : TickState) (r : Row) (ts tok : String) (e : Unit) (hts : r.reminder_time = some ts)
    (hft : r.fcm_token = some tok) (htok : tok ≠ "")
    (hwin : is_within_window ts nowTod 5 = .error e) :
    processReminder today nowTod g s r = .error e := by
  simp [processReminder, hts, hft, htok, hwin]

/-- A candidate inside the window whose dispatch succeeds: one gateway call,
    the write-back, and the send counter. -/
theorem processReminder_dispatch_success (today : Int) (nowTod : Nat) (g : String → Bool)
    (s : TickState) (r : Row) (ts tok : String) (hts : r.reminder_time = some ts)
    (hft : r.fcm_token = some tok) (htok : tok ≠ "")
    (hwin : is_within_window ts nowTod 5 = .ok true) (hg : g tok = true) :
    processReminder today nowTod g s r =
      .ok ⟨update_reminder s.db r.id today, s.send_count + 1, s.skip_count,
        s.calls ++ [(r.id, tok)]⟩ := by
  simp [processReminder, hts, hft, htok, hwin, hg]

/-- A candidate inside the window whose dispatch fails: one gateway call and
    nothing else. -/
theorem processReminder_dispatch_fail (today : Int) (nowTod : Nat) (g : String → Bool)
    (s : TickState) (r : Row) (ts tok : String) (hts : r.reminder_time = some ts)
    (hft : r.fcm_token = some tok) (htok : tok ≠ "")
    (hwin : is_within_window ts nowTod 5 = .ok true) (hg : g tok = false) :
    processReminder today nowTod g s r = .ok { s with calls := s.calls ++ [(r.id, tok)] } := by
  simp [processReminder, hts, hft, htok, hwin, hg]

/-- A row with a present time and a safe shape is processed without raising. -/
theorem processReminder_total (today : Int) (nowTod : Nat) (g : String → Bool)
    (s : TickState) (r : Row) (hrt : r.reminder_time ≠ none) (hsafe : safeRow r = true) :
    ∃ s', processReminder today nowTod g s r = .ok s' := by
  obtain ⟨ts, hts⟩ := Option.ne_none_iff_exists'.mp hrt
  cases hft : r.fcm_token with
  | none => exact ⟨_, processReminder_token_skip today nowTod g s r ts hts (Or.inl hft)⟩
  | some tok =>
    by_cases htok : tok = ""
    · subst htok
      exact ⟨_, processReminder_token_skip today nowTod g s r ts hts (Or.inr hft)⟩
    · have hparse : (parseHM ts).isSome = true := by
        simp only [safeRow, hft, hts] at hsafe
        simpa [htok] using hsafe
      obtain ⟨hm, hpm⟩ := Option.isSome_iff_exists.mp hparse
      obtain ⟨h, m⟩ := hm
      obtain ⟨b, hb⟩ : ∃ b, is_within_window ts nowTod 5 = .ok b :=
        ⟨_, by unfold is_within_window; rw [hpm]⟩
      cases b with
      | false =>
        exact ⟨_, processReminder_window_false today nowTod g s r ts tok hts hft htok hb⟩
      | true =>
        cases hg : g tok with
        | true =>
          exact ⟨_, processReminder_dispatch_success today nowTod g s r ts tok hts hft htok hb hg⟩
        | false =>
          exact ⟨_, processReminder_dispatch_fail today nowTod g s r ts tok hts hft htok hb hg⟩

/-- A loop over rows with present times and safe shapes never raises. -/
theorem runList_total (today : Int) (nowTod : Nat) (g : String → Bool) :
    ∀ L : List Row, (∀ x ∈ L, x.reminder_time ≠ none ∧ safeRow x = true) →
      ∀ s, ∃ s', runList today nowTod g s L = .ok s' := by
  intro L
  induction L with
  | nil => exact fun _ s => ⟨s, rfl⟩
  | cons r rs ih =>
    intro hall s
    obtain ⟨s1, hs1⟩ :=
      processReminder_total today nowTod g s r (hall r (by simp)).1 (hall r (by simp)).2
    obtain ⟨s', hs'⟩ := ih (fun x hx => hall x (by simp [hx])) s1
    exact ⟨s', by simp only [runList, hs1, hs']⟩

/-- Call counts add across concatenated logs. -/
theorem countCalls_append (rid : Nat) (a b : List (Nat × String)) :
    countCalls rid (a ++ b) = countCalls rid a + countCalls rid b := by
  simp [countCalls, List.filter_append]

/-- Failed-call counts add across concatenated logs. -/
theorem failCalls_append (g : String → Bool) (a b : List (Nat × String)) :
    failCalls g (a ++ b) = failCalls g a + failCalls g b := by
  simp [failCalls, List.filter_append]

/-- Every call a candidate produces is attributed to that candidate's id. -/
theorem callOf_ids {nowTod : Nat} {r : Row} {c : Nat × String}
    (hc : c ∈ callOf nowTod r) : c.1 = r.id := by
  cases hts : r.reminder_time with
  | none => simp [callOf, hts] at hc
  | some ts =>
    cases hft : r.fcm_token with
    | none => simp [callOf, hts, hft] at hc
    | some tok =>
      by_cases htok : tok = ""
      · simp [callOf, hts, hft, htok] at hc
      · cases hb : is_within_window ts nowTod 5 with
        | error e => simp [callOf, hts, hft, htok, hb] at hc
        | ok b =>
          cases b with
          | false => simp [callOf, hts, hft, htok, hb] at hc
          | true =>
            simp [callOf, hts, hft, htok, hb] at hc
            simp [hc]

/-- One loop iteration: the calls grow by exactly the candidate's calls, the
    accounting identity `sent + skipped + failed calls` advances by one, and
    the store is either untouched or written back for the candidate's id. -/
theorem processReminder_ok_spec (today : Int) (nowTod : Nat) (g : String → Bool)
    (s : TickState) (r : Row) (s' : TickState)
    (h : processReminder today nowTod g s r = .ok s') :
    s'.calls = s.calls ++ callOf nowTod r ∧
    s'.send_count + s'.skip_count + failCalls g s'.calls =
      s.send_count + s.skip_count + failCalls g s.calls + 1 ∧
    (s'.db = s.db ∨ s'.db = update_reminder s.db r.id today) := by
  cases hts : r.reminder_time with
  | none =>
    rw [show processReminder today nowTod g s r = .error () from by
      simp [processReminder, hts]] at h
    cases h
  | some ts =>
    cases hft : r.fcm_token with
    | none =>
      rw [processReminder_token_skip today nowTod g s r ts hts (Or.inl hft)] at h
      cases h
      refine ⟨by simp [callOf, hts, hft], by dsimp only; omega, Or.inl rfl⟩
    | some tok =>
      by_cases htok : tok = ""
      · subst htok
        rw [processReminder_token_skip today nowTod g s r ts hts (Or.inr hft)] at h
        cases h
        refine ⟨by simp [callOf, hts, hft], by dsimp only; omega, Or.inl rfl⟩
      · cases hb : is_within_window ts nowTod 5 with
        | error e =>
          rw [processReminder_window_error today nowTod g s r ts tok e hts hft htok hb] at h
          cases h
        | ok b =>
          cases b with
          | false =>
            rw [processReminder_window_false today nowTod g s r ts tok hts hft htok hb] at h
            cases h
            refine ⟨by simp [callOf, hts, hft, htok, hb], by dsimp only; omega, Or.inl rfl⟩
          | true =>
            cases hg : g tok with
            | true =>
              rw [processReminder_dispatch_success today nowTod g s r ts tok hts hft htok hb hg] at h
              cases h
              refine ⟨by simp [callOf, hts, hft, htok, hb], ?_, Or.inr rfl⟩
              have hfc : failCalls g (s.calls ++ [(r.id, tok)]) = failCalls g s.calls := by
                simp [failCalls_append, failCalls, hg]
              dsimp only
              simp only [hfc]
              omega
            | false =>
              rw [processReminder_dispatch_fail today nowTod g s r ts tok hts hft htok hb hg] at h
              cases h
              refine ⟨by simp [callOf, hts, hft, htok, hb], ?_, Or.inl rfl⟩
              have hfc : failCalls g (s.calls ++ [(r.id, tok)]) = failCalls g s.calls + 1 := by
                simp [failCalls_append, failCalls, hg]
              dsimp only
              simp only [hfc]
              omega

/-- The whole loop: calls are the concatenation of the per-candidate calls and
    the accounting identity advances by the number of candidates. -/
theorem runList_ok_spec (today : Int) (nowTod : Nat) (g : String → Bool) :
    ∀ (L : List Row) (s s' : TickState),
      runList today nowTod g s L = .ok s' →
      s'.calls = s.calls ++ callsOfList nowTod L ∧
      s'.send_count + s'.skip_count + failCalls g s'.calls =
        s.send_count + s.skip_count + failCalls g s.calls + L.length := by
  intro L
  induction L with
  | nil =>
    intro s s' h
    cases h
    exact ⟨by simp [callsOfList], by simp⟩
  | cons r rs ih =>
    intro s s' h
    rw [runList] at h
    cases hpr : processReminder today nowTod g s r with
    | error e => rw [hpr] at h; cases h
    | ok s1 =>
      rw [hpr] at h
      obtain ⟨hc, hn⟩ := ih s1 s' h
      obtain ⟨hc0, hn0, _⟩ := processReminder_ok_spec today nowTod g s r s1 hpr
      constructor
      · rw [hc, hc0, callsOfList, List.append_assoc]
      · simp only [List.length_cons]
        omega

/-- A tick whose selection is empty returns at once, reporting nothing. -/
theorem run_tick_empty (db : List Row) (today : Int) (nowTod : Nat) (g : String → Bool)
    (he : storeQuery db today nowTod = []) :
    run_tick db today nowTod g = .ok ⟨db, 0, 0, 0, []⟩ := by
  simp [run_tick, get_reminders_to_send, he]

/-- A tick whose loop completes reports the loop's outcome and the length of
    the selection as `Total checked`. -/
theorem run_tick_eq (db : List Row) (today : Int) (nowTod : Nat) (g : String → Bool)
    (s' : TickState)
    (hne : storeQuery db today nowTod ≠ [])
    (hrun : runList today nowTod g ⟨db, 0, 0, []⟩ (storeQuery db today nowTod) = .ok s') :
    run_tick db today nowTod g =
      .ok ⟨s'.db, (storeQuery db today nowTod).length, s'.send_count, s'.skip_count, s'.calls⟩ := by
  simp [run_tick, get_reminders_to_send, hne, hrun]

/-- Claim C3 fails as stated: the tick does not always complete.  A selected
    record whose time string does not parse (here `"09:0a"`, which the store's
    text range filter admits) raises `ValueError` out of the loop and aborts
    the whole tick. -/
theorem C3_counterexample :
    run_tick [⟨1, some "u", some "t", some "09:0a", none, none⟩] 0 32400 (fun _ => true) =
      .error () := by decide

/-- Claim C3 amended: the tick completes and returns its summary provided
    every stored row either has a missing or empty token (the guard skips it
    before the time is parsed) or a parsable time string; a record with no
    time at all is never selected.  Without that proviso the tick can raise
    (see the counterexample). -/
theorem C3_tick_completes (db : List Row) (today : Int) (nowTod : Nat) (g : String → Bool)
    (hsafe : ∀ x ∈ db, safeRow x = true) :
    ∃ rep, run_tick db today nowTod g = .ok rep := by
  by_cases hne : storeQuery db today nowTod = []
  · exact ⟨_, run_tick_empty db today nowTod g hne⟩
  · obtain ⟨s', hs'⟩ := runList_total today nowTod g (storeQuery db today nowTod)
      (fun x hx => ⟨(storeQuery_mem hx).2, hsafe x (storeQuery_mem hx).1⟩) ⟨db, 0, 0, []⟩
    exact ⟨_, run_tick_eq db today nowTod g s' hne hs'⟩

/-- Witness for C3's amended theorem: a store whose only row lacks a token. -/
theorem C3_tick_completes_witness :
    ∃ rep, run_tick [⟨1, some "u", none, some "09:00:00", none, none⟩] 0 32400
      (fun _ => true) = .ok rep :=
  C3_tick_completes [⟨1, some "u", none, some "09:00:00", none, none⟩] 0 32400
    (fun _ => true) (by decide)

/-- Claim C4 fails as stated: a candidate whose dispatch fails is counted
    neither as sent nor as skipped, so the report of a tick with one due
    candidate and a failing gateway has `checked = 1` but `sent = skipped = 0`. -/
theorem C4_counterexample :
    ¬ ∀ rep, run_tick [⟨1, some "u", some "t", some "09:00:00", none, none⟩] 0 32400
        (fun _ => false) = .ok rep → rep.checked = rep.sent + rep.skipped := by
  intro hassum
  have h1 := hassum
    ⟨[⟨1, some "u", some "t", some "09:00:00", none, none⟩], 1, 0, 0, [(1, "t")]⟩
    (by decide)
  exact absurd h1 (by decide)

/-- Claim C4 amended: a failed dispatch leaves both counters untouched, so the
    report satisfies `checked = sent + skipped + failed`, where `failed` is
    the number of gateway invocations that returned failure — not
    `checked = sent + skipped`. -/
theorem C4_report_accounting (db : List Row) (today : Int) (nowTod : Nat) (g : String → Bool)
    (hsafe : ∀ x ∈ db, safeRow x = true) :
    ∃ rep, run_tick db today nowTod g = .ok rep ∧
      rep.checked = rep.sent + rep.skipped + failCalls g rep.calls := by
  by_cases hne : storeQuery db today nowTod = []
  · exact ⟨_, ⟨run_tick_empty db today nowTod g hne, by simp [failCalls]⟩⟩
  · obtain ⟨s', hs'⟩ := runList_total today nowTod g (storeQuery db today nowTod)
      (fun x hx => ⟨(storeQuery_mem hx).2, hsafe x (storeQuery_mem hx).1⟩) ⟨db, 0, 0, []⟩
    obtain ⟨hc, hn⟩ := runList_ok_spec today nowTod g _ _ _ hs'
    refine ⟨_, ⟨run_tick_eq db today nowTod g s' hne hs', ?_⟩⟩
    dsimp only
    dsimp only at hn
    have hz : failCalls g ([] : List (Nat × String)) = 0 := rfl
    rw [hz] at hn
    omega

/-- Witness for C4's amended theorem: one due candidate, failing gateway. -/
theorem C4_report_accounting_witness :
    ∃ rep, run_tick [⟨1, some "u", some "t", some "09:00:00", none, none⟩] 0 32400
        (fun _ => false) = .ok rep ∧
      rep.checked = rep.sent + rep.skipped + failCalls (fun _ => false) rep.calls :=
  C4_report_accounting [⟨1, some "u", some "t", some "09:00:00", none, none⟩] 0 32400
    (fun _ => false) (by decide)

/-- Claim C5: over a working store the selector's single query selects exactly
    the rows with (`last_notified_date` absent or earlier than today) and
    (`expires_on` absent or after today) and time of day within
    `[now, now + 60 min]` — stated for rows whose stored time is a rendered
    valid time of day and for ticks whose one-hour lookahead stays inside the
    day (the query's string upper bound wraps past midnight otherwise).  In
    particular a row with `expires_on = today` is never selected when the
    current date has reached it, and the day before it is selected exactly
    when the remaining conjuncts hold. -/
theorem C5_selector_exact (db : List Row) (today : Int) (nowTod : Nat)
    (hnw : nowTod + 3600 < 86400)
    (r : Row) (t : Nat) (ht : t < 86400)
    (hrt : r.reminder_time = some (fmtTime t)) :
    (r ∈ get_reminders_to_send (some db) today nowTod ↔
      r ∈ db ∧ spec_eligible r today = true ∧ nowTod ≤ t ∧ t ≤ nowTod + 3600) ∧
    (∀ d : Int, r.expires_on = some d → d ≤ today →
      r ∉ get_reminders_to_send (some db) today nowTod) ∧
    (∀ d : Int, r.expires_on = some d → today = d - 1 →
      (r ∈ get_reminders_to_send (some db) today nowTod ↔
        r ∈ db ∧ spec_not_notified r today = true ∧ nowTod ≤ t ∧ t ≤ nowTod + 3600)) := by
  have hmod : (nowTod + 3600) % 86400 = nowTod + 3600 := Nat.mod_eq_of_lt hnw
  have hA := fmtTime_le_iff nowTod t (by omega) ht
  have hB := fmtTime_le_iff t (nowTod + 3600) ht (by omega)
  have hmain : r ∈ get_reminders_to_send (some db) today nowTod ↔
      r ∈ db ∧ spec_eligible r today = true ∧ nowTod ≤ t ∧ t ≤ nowTod + 3600 := by
    rw [show get_reminders_to_send (some db) today nowTod = storeQuery db today nowTod
        from rfl,
      storeQuery, hmod, List.mem_filter]
    simp only [selectorPred, spec_eligible, spec_not_notified, hrt, Bool.and_eq_true]
    rw [hA, hB]
  refine ⟨hmain, ?_, ?_⟩
  · intro d hd hdle hmem
    obtain ⟨-, helig, -⟩ := hmain.mp hmem
    simp only [spec_eligible, spec_not_notified, hd, Bool.and_eq_true,
      decide_eq_true_eq] at helig
    omega
  · intro d hd hday
    rw [hmain]
    have helig : spec_eligible r today = spec_not_notified r today := by
      simp [spec_eligible, hd, show today < d from by omega]
    rw [helig]

/-- Witness for C5 at a one-row store: reminder at 09:00:00 expiring in the
    future, queried at 09:00:00 four days before expiry. -/
theorem C5_selector_exact_witness :
    (⟨1, some "u", some "t", some (fmtTime 32400), none, some 5⟩ : Row) ∈
        get_reminders_to_send
          (some [⟨1, some "u", some "t", some (fmtTime 32400), none, some 5⟩]) 4 32400 ↔
      (⟨1, some "u", some "t", some (fmtTime 32400), none, some 5⟩ : Row) ∈
          [(⟨1, some "u", some "t", some (fmtTime 32400), none, some 5⟩ : Row)] ∧
        spec_eligible ⟨1, some "u", some "t", some (fmtTime 32400), none, some 5⟩ 4 = true ∧
        32400 ≤ 32400 ∧ 32400 ≤ 32400 + 3600 :=
  (C5_selector_exact [⟨1, some "u", some "t", some (fmtTime 32400), none, some 5⟩] 4 32400
    (by decide) ⟨1, some "u", some "t", some (fmtTime 32400), none, some 5⟩ 32400
    (by decide) rfl).1

/-- The loop distributes over concatenation of candidate lists. -/
theorem runList_append (today : Int) (nowTod : Nat) (g : String → Bool) (A B : List Row) :
    ∀ s, runList today nowTod g s (A ++ B) =
      match runList today nowTod g s A with
      | .error e => .error e
      | .ok s1 => runList today nowTod g s1 B := by
  induction A with
  | nil => intro s; rfl
  | cons r rs ih =>
    intro s
    simp only [List.cons_append, runList]
    cases hpr : processReminder today nowTod g s r with
    | error e => rfl
    | ok s1 => exact ih s1

/-- After the write-back for an id, every row carrying that id is marked. -/
theorem notifiedAll_update (db : List Row) (rid : Nat) (today : Int) :
    notifiedAll rid today (update_reminder db rid today) := by
  intro x hx hid
  rw [update_reminder, List.mem_map] at hx
  obtain ⟨y, hy, hxy⟩ := hx
  by_cases h : y.id = rid
  · rw [if_pos h] at hxy
    subst hxy
    rfl
  · rw [if_neg h] at hxy
    subst hxy
    exact absurd hid h

/-- Write-backs of the same date never unmark a row. -/
theorem notifiedAll_update_pres (db : List Row) (rid rid' : Nat) (today : Int)
    (h : notifiedAll rid today db) :
    notifiedAll rid today (update_reminder db rid' today) := by
  intro x hx hid
  rw [update_reminder, List.mem_map] at hx
  obtain ⟨y, hy, hxy⟩ := hx
  by_cases hc : y.id = rid'
  · rw [if_pos hc] at hxy
    subst hxy
    rfl
  · rw [if_neg hc] at hxy
    subst hxy
    exact h y hy hid

/-- One loop iteration preserves the marking of an id. -/
theorem notifiedAll_step (today : Int) (nowTod : Nat) (g : String → Bool)
    (s s' : TickState) (r : Row) (rid : Nat)
    (hpr : processReminder today nowTod g s r = .ok s')
    (h : notifiedAll rid today s.db) : notifiedAll rid today s'.db := by
  obtain ⟨-, -, hdb⟩ := processReminder_ok_spec today nowTod g s r s' hpr
  rcases hdb with hdb | hdb
  · rw [hdb]; exact h
  · rw [hdb]; exact notifiedAll_update_pres s.db rid r.id today h

/-- The whole loop preserves the marking of an id. -/
theorem notifiedAll_run (today : Int) (nowTod : Nat) (g : String → Bool) (rid : Nat) :
    ∀ (L : List Row) (s s' : TickState),
      runList today nowTod g s L = .ok s' →
      notifiedAll rid today s.db → notifiedAll rid today s'.db := by
  intro L
  induction L with
  | nil =>
    intro s s' h hn
    cases h
    exact hn
  | cons r rs ih =>
    intro s s' h hn
    rw [runList] at h
    cases hpr : processReminder today nowTod g s r with
    | error e => rw [hpr] at h; cases h
    | ok s1 =>
      rw [hpr] at h
      exact ih s1 s' h (notifiedAll_step today nowTod g s s1 r rid hpr hn)

/-- Evolution is reflexive. -/
theorem framePreserved_refl (today : Int) (db : List Row) : framePreserved today db db := by
  rw [framePreserved, List.forall₂_same]
  exact fun x _ => ⟨rfl, rfl, rfl, rfl, rfl, Or.inl rfl⟩

/-- A write-back is an evolution. -/
theorem framePreserved_update (today : Int) (db : List Row) (rid : Nat) :
    framePreserved today db (update_reminder db rid today) := by
  induction db with
  | nil => exact List.Forall₂.nil
  | cons y ys ih =>
    refine List.Forall₂.cons ?_ ih
    by_cases h : y.id = rid
    · simp [rowEvolves, h]
    · simp [rowEvolves, h]

/-- Row evolution composes. -/
theorem rowEvolves_trans (today : Int) {a b c : Row}
    (h1 : rowEvolves today a b) (h2 : rowEvolves today b c) : rowEvolves today a c := by
  obtain ⟨i1, u1, f1, r1, e1, l1⟩ := h1
  obtain ⟨i2, u2, f2, r2, e2, l2⟩ := h2
  refine ⟨i2.trans i1, u2.trans u1, f2.trans f1, r2.trans r1, e2.trans e1, ?_⟩
  rcases l2 with l2 | l2
  · rw [l2]; exact l1
  · exact Or.inr l2

/-- Store evolution composes. -/
theorem framePreserved_trans (today : Int) :
    ∀ {a b c : List Row}, framePreserved today a b → framePreserved today b c →
      framePreserved today a c := by
  intro a b c h1 h2
  induction h1 generalizing c with
  | nil =>
    cases h2
    exact List.Forall₂.nil
  | cons hr ht ih =>
    cases h2 with
    | cons hr2 ht2 => exact List.Forall₂.cons (rowEvolves_trans today hr hr2) (ih ht2)

/-- One loop iteration evolves the store. -/
theorem framePreserved_step (today : Int) (nowTod : Nat) (g : String → Bool)
    (s s' : TickState) (r : Row)
    (hpr : processReminder today nowTod g s r = .ok s') :
    framePreserved today s.db s'.db := by
  obtain ⟨-, -, hdb⟩ := processReminder_ok_spec today nowTod g s r s' hpr
  rcases hdb with hdb | hdb
  · rw [hdb]; exact framePreserved_refl today s.db
  · rw [hdb]; exact framePreserved_update today s.db r.id

/-- The whole loop evolves the store. -/
theorem framePreserved_run (today : Int) (nowTod : Nat) (g : String → Bool) :
    ∀ (L : List Row) (s s' : TickState),
      runList today nowTod g s L = .ok s' → framePreserved today s.db s'.db := by
  intro L
  induction L with
  | nil =>
    intro s s' h
    cases h
    exact framePreserved_refl today s.db
  | cons r rs ih =>
    intro s s' h
    rw [runList] at h
    cases hpr : processReminder today nowTod g s r with
    | error e => rw [hpr] at h; cases h
    | ok s1 =>
      rw [hpr] at h
      exact framePreserved_trans today
        (framePreserved_step today nowTod g s s1 r hpr) (ih s1 s' h)

/-- Every row of an evolved store evolved from some original row. -/
theorem framePreserved_mem_right (today : Int) :
    ∀ {db db' : List Row}, framePreserved today db db' →
      ∀ {x' : Row}, x' ∈ db' → ∃ x ∈ db, rowEvolves today x x' := by
  intro db db' h
  induction h with
  | nil =>
    intro x' hx'
    cases hx'
  | cons hr ht ih =>
    intro x' hx'
    rcases List.mem_cons.mp hx' with hx' | hx'
    · subst hx'
      exact ⟨_, List.mem_cons_self _ _, hr⟩
    · obtain ⟨x, hx, hrel⟩ := ih hx'
      exact ⟨x, List.mem_cons_of_mem _ hx, hrel⟩

/-- Safety of a row depends only on the fields evolution preserves. -/
theorem safeRow_evolves {today : Int} {a b : Row} (h : rowEvolves today a b)
    (hs : safeRow a = true) : safeRow b = true := by
  obtain ⟨-, -, hf, hr, -, -⟩ := h
  simp only [safeRow] at hs ⊢
  rw [hf, hr]
  exact hs

/-- A candidate with a different id contributes no calls for the id. -/
theorem countCalls_other {nowTod : Nat} {rid : Nat} {x : Row} (h : x.id ≠ rid) :
    countCalls rid (callOf nowTod x) = 0 := by
  rw [countCalls, List.length_eq_zero, List.filter_eq_nil_iff]
  intro c hc
  simp [callOf_ids hc, h]

/-- A candidate list none of whose rows carries the id contributes no calls. -/
theorem countCalls_zero_of_none (nowTod : Nat) (rid : Nat) :
    ∀ L : List Row, (∀ x ∈ L, x.id ≠ rid) → countCalls rid (callsOfList nowTod L) = 0 := by
  intro L
  induction L with
  | nil => intro _; rfl
  | cons x xs ih =>
    intro h
    rw [callsOfList, countCalls_append, countCalls_other (h x (by simp)),
      ih (fun y hy => h y (by simp [hy]))]

/-- With store-unique ids, the calls a list attributes to a member's id are
    exactly that member's own calls. -/
theorem countCalls_unique (nowTod : Nat) (r : Row) :
    ∀ L : List Row, (L.map Row.id).Nodup → r ∈ L →
      countCalls r.id (callsOfList nowTod L) = countCalls r.id (callOf nowTod r) := by
  intro L
  induction L with
  | nil =>
    intro _ h
    cases h
  | cons x xs ih =>
    intro hnd hmem
    rw [List.map_cons, List.nodup_cons] at hnd
    rw [callsOfList, countCalls_append]
    rcases List.mem_cons.mp hmem with hx | hx
    · subst hx
      rw [countCalls_zero_of_none nowTod r.id xs
        (fun y hy hyid => hnd.1 (hyid ▸ List.mem_map_of_mem Row.id hy)), Nat.add_zero]
    · have hxid : x.id ≠ r.id :=
        fun he => hnd.1 (he ▸ List.mem_map_of_mem Row.id hx)
      rw [countCalls_other hxid, ih hnd.2 hx, Nat.zero_add]

/-- A dispatching candidate contributes exactly one call for its id. -/
theorem countCalls_dispatch (nowTod : Nat) (r : Row) (ts tok : String)
    (hts : r.reminder_time = some ts) (hft : r.fcm_token = some tok) (htok : tok ≠ "")
    (hwin : is_within_window ts nowTod 5 = .ok true) :
    countCalls r.id (callOf nowTod r) = 1 := by
  simp [callOf, countCalls, hts, hft, htok, hwin]

/-- A selected row is not marked as already notified today: the query's first
    filter excludes it. -/
theorem storeQuery_not_notified {db : List Row} {today : Int} {nowTod : Nat} {x : Row}
    (hx : x ∈ storeQuery db today nowTod) :
    x.last_notified_date ≠ some today := by
  rw [storeQuery, List.mem_filter] at hx
  intro hl
  have hp := hx.2
  simp [selectorPred, hl] at hp

/-- Claim C1: at most one successful dispatch per reminder per calendar date.
    Over a store with unique row ids and safe rows, a reminder selected on the
    first tick of a date, inside the 5-minute window, with a nonempty token
    and a succeeding gateway, triggers exactly one gateway call across that
    tick and any second tick of the same date: the write-back sets
    `last_notified_date` to the date and the second tick's query excludes
    every reminder so marked. -/
theorem C1_at_most_one_send_per_day
    (db : List Row) (today : Int) (tod1 tod2 : Nat) (g : String → Bool)
    (r : Row) (ts tok : String)
    (hnd : (db.map Row.id).Nodup)
    (hsafe : ∀ x ∈ db, safeRow x = true)
    (hsel : r ∈ get_reminders_to_send (some db) today tod1)
    (hts : r.reminder_time = some ts)
    (hft : r.fcm_token = some tok) (htok : tok ≠ "")
    (hwin : is_within_window ts tod1 5 = .ok true)
    (hg : g tok = true) :
    ∃ rep1 rep2, run_tick db today tod1 g = .ok rep1 ∧
      run_tick rep1.db today tod2 g = .ok rep2 ∧
      countCalls r.id (rep1.calls ++ rep2.calls) = 1 := by
  have hselq : r ∈ storeQuery db today tod1 := hsel
  have hne1 : storeQuery db today tod1 ≠ [] := List.ne_nil_of_mem hselq
  have hsafeL1 : ∀ x ∈ storeQuery db today tod1,
      x.reminder_time ≠ none ∧ safeRow x = true :=
    fun x hx => ⟨(storeQuery_mem hx).2, hsafe x (storeQuery_mem hx).1⟩
  obtain ⟨s1, hs1⟩ :=
    runList_total today tod1 g (storeQuery db today tod1) hsafeL1 ⟨db, 0, 0, []⟩
  have hrep1 := run_tick_eq db today tod1 g s1 hne1 hs1
  obtain ⟨hc1, -⟩ :=
    runList_ok_spec today tod1 g (storeQuery db today tod1) ⟨db, 0, 0, []⟩ s1 hs1
  have hsub : List.Sublist ((storeQuery db today tod1).map Row.id) (db.map Row.id) := by
    rw [storeQuery]
    exact (List.filter_sublist db).map Row.id
  have hndL1 := hnd.sublist hsub
  have hcount1 : countCalls r.id s1.calls = 1 := by
    rw [hc1]
    dsimp only
    rw [List.nil_append, countCalls_unique tod1 r (storeQuery db today tod1) hndL1 hselq,
      countCalls_dispatch tod1 r ts tok hts hft htok hwin]
  obtain ⟨A, B, hAB⟩ := List.append_of_mem hselq
  have hnotif1 : notifiedAll r.id today s1.db := by
    have hs1' := hs1
    rw [hAB, runList_append] at hs1'
    cases hA : runList today tod1 g ⟨db, 0, 0, []⟩ A with
    | error e =>
      rw [hA] at hs1'
      dsimp only at hs1'
      cases hs1'
    | ok sA =>
      rw [hA] at hs1'
      dsimp only at hs1'
      rw [runList,
        processReminder_dispatch_success today tod1 g sA r ts tok hts hft htok hwin hg]
        at hs1'
      dsimp only at hs1'
      exact notifiedAll_run today tod1 g r.id B _ s1 hs1'
        (notifiedAll_update sA.db r.id today)
  have hfp : framePreserved today db s1.db :=
    framePreserved_run today tod1 g (storeQuery db today tod1) ⟨db, 0, 0, []⟩ s1 hs1
  have hsafe1 : ∀ x ∈ s1.db, safeRow x = true := by
    intro x hx
    obtain ⟨x0, hx0, hrel⟩ := framePreserved_mem_right today hfp hx
    exact safeRow_evolves hrel (hsafe x0 hx0)
  have hsafeL2 : ∀ x ∈ storeQuery s1.db today tod2,
      x.reminder_time ≠ none ∧ safeRow x = true :=
    fun x hx => ⟨(storeQuery_mem hx).2, hsafe1 x (storeQuery_mem hx).1⟩
  have hnoid2 : ∀ x ∈ storeQuery s1.db today tod2, x.id ≠ r.id := by
    intro x hx hid
    exact storeQuery_not_notified hx (hnotif1 x (storeQuery_mem hx).1 hid)
  by_cases hne2 : storeQuery s1.db today tod2 = []
  · refine ⟨_, _, hrep1, run_tick_empty s1.db today tod2 g hne2, ?_⟩
    dsimp only
    rw [List.append_nil, hcount1]
  · obtain ⟨s2, hs2⟩ :=
      runList_total today tod2 g (storeQuery s1.db today tod2) hsafeL2 ⟨s1.db, 0, 0, []⟩
    obtain ⟨hc2, -⟩ :=
      runList_ok_spec today tod2 g (storeQuery s1.db today tod2) ⟨s1.db, 0, 0, []⟩ s2 hs2
    refine ⟨_, _, hrep1, run_tick_eq s1.db today tod2 g s2 hne2 hs2, ?_⟩
    dsimp only
    rw [countCalls_append, hcount1, hc2]
    dsimp only
    rw [List.nil_append, countCalls_zero_of_none tod2 r.id (storeQuery s1.db today tod2) hnoid2]

/-- Witness for C1: one stored reminder at 09:00:00, two ticks of the same
    date at 09:00:00 and 09:01:00, an always-succeeding gateway. -/
theorem C1_at_most_one_send_per_day_witness :
    ∃ rep1 rep2,
      run_tick [⟨1, some "u", some "t", some "09:00:00", none, none⟩] 0 32400
        (fun _ => true) = .ok rep1 ∧
      run_tick rep1.db 0 32460 (fun _ => true) = .ok rep2 ∧
      countCalls 1 (rep1.calls ++ rep2.calls) = 1 :=
  C1_at_most_one_send_per_day [⟨1, some "u", some "t", some "09:00:00", none, none⟩]
    0 32400 32460 (fun _ => true) ⟨1, some "u", some "t", some "09:00:00", none, none⟩
    "09:00:00" "t" (by decide) (by decide) (by decide) rfl rfl (by decide) (by decide) rfl
